import Mathlib

/-!
# Verification of the ssv identity / credential-lifecycle core

Shallow embedding of the LMDB-backed user service (`go/services/users`,
`go/services/crypto`): the single-DBI key/value store is modelled as an
association list from symbolic keys to typed values, an update transaction
commits its writes exactly when the transaction body finishes without an
error (on an error the original store is returned unchanged, mirroring the
store's abort contract), and each Go function becomes a Lean function from
the pre-state to the post-state paired with the reported error.

Modelling conventions:
* Store keys such as `"email." ++ sha256(lowercase(email))` are represented
  symbolically by the hash preimage (`Key.email (lowercased email)`), which
  treats sha256 as injective; likewise for the `invite.`, `password_edit.`
  and `email_edit.` token namespaces and `user.` ids.
* `time.Time` values are integers (seconds); the Go zero time is `0` and
  `t.Before(now)` is `t < now`.
* `json.Marshal`/`json.Unmarshal` round-trip on the `User` record, so a
  stored record is kept as a typed value; reading a value of the wrong
  shape corresponds to the Go decode/lookup failure and aborts.
* Randomness (`crypto.GenRandomString`) is an oracle `cands : Nat → String`
  supplying the successive generated strings.
* argon2 hashing is an abstract injective-by-construction function of the
  password and salt; `ComparePasswords` is equality with the recomputation,
  exactly as in `crypto.go`.
* The outbound mail send is an oracle boolean `sendOk`; `SendEmail` fails
  exactly when it is `false`.
-/

set_option autoImplicit false

namespace Ssv

/-- Symbolic store keys of the single user DBI, one constructor per key
namespace used by the source (`user.`, `email.`, `invite.`,
`password_edit.`, `email_edit.`). The payload is the hash preimage
(sha256 is treated as injective). -/
inductive Key where
  | user (id : String)
  | email (e : String)
  | invite (t : String)
  | passEdit (t : String)
  | emailEdit (t : String)
deriving DecidableEq, Repr

/-- The `User` record of `src/unnamed/part_005` (JSON-encoded in the store).
Back-reference keys (`EmailKey`, `InviteKey`, `EmailEditKey`, `PassEditKey`)
are `Option Key`: `none` is Go's nil/empty slice. -/
structure User where
  perms : List String := []
  name : String := ""
  email : String := ""
  editEmail : String := ""
  agreedPP : Int := 0
  notified : Bool := false
  passSalt : String := ""
  passHash : String := ""
  createdAt : Int := 0
  failedLogins : List Int := []
  inviteExpiry : Int := 0
  emailEditExpiry : Int := 0
  passEditExpiry : Int := 0
  emailKey : Option Key := none
  inviteKey : Option Key := none
  emailEditKey : Option Key := none
  passEditKey : Option Key := none
deriving DecidableEq, Repr

/-- A value stored in the user DBI: either a JSON-encoded `User` record or
raw user-key bytes (the value of an email / token index entry). -/
inductive Val where
  | record (u : User)
  | key (k : Key)
deriving DecidableEq, Repr

/-- The user DBI, as an association list (LMDB maps each key to at most one
value; `put` with flags 0 overwrites, `del` removes). -/
abbrev Store := List (Key × Val)

/-- Keys of the session DBI: the per-user session index
(`user_sessions. ++ sha256(userKey)`) or an individual session entry. -/
inductive SKey where
  | idx (uk : Key)
  | sess (name : String)
deriving DecidableEq, Repr

/-- Session-DBI values: the JSON list of session keys held by an index
entry, or opaque session data. -/
inductive SVal where
  | idx (ks : List String)
  | raw (data : String)
deriving DecidableEq, Repr

/-- The session DBI. -/
abbrev SStore := List (SKey × SVal)

section AssocOps

variable {α : Type} {β : Type} [DecidableEq α]

/-- Transactional `Get`: the value stored at `k`, `none` for `MDB_NOTFOUND`. -/
def lookupA : List (α × β) → α → Option β
  | [], _ => none
  | (k', v) :: rest, k => if k' = k then some v else lookupA rest k

/-- Transactional `Put` with flags 0: overwrite the entry at `k`. -/
def putA : List (α × β) → α → β → List (α × β)
  | [], k, v => [(k, v)]
  | (k', v') :: rest, k, v =>
    if k' = k then (k, v) :: rest else (k', v') :: putA rest k v

/-- Transactional `Del`: remove the entry at `k` (no-op when absent, which
callers treat as the tolerated `MDB_NOTFOUND`). -/
def delA : List (α × β) → α → List (α × β)
  | [], _ => []
  | (k', v') :: rest, k =>
    if k' = k then delA rest k else (k', v') :: delA rest k

@[simp] theorem lookupA_putA_self (s : List (α × β)) (k : α) (v : β) :
    lookupA (putA s k v) k = some v := by
  induction s with
  | nil => simp [lookupA, putA]
  | cons hd tl ih =>
    obtain ⟨k', v'⟩ := hd
    by_cases h : k' = k <;> simp [lookupA, putA, h, ih]

theorem lookupA_putA_ne {s : List (α × β)} {k k' : α} {v : β} (h : k' ≠ k) :
    lookupA (putA s k v) k' = lookupA s k' := by
  induction s with
  | nil => simp [lookupA, putA, Ne.symm h]
  | cons hd tl ih =>
    obtain ⟨k₀, v₀⟩ := hd
    by_cases h0 : k₀ = k
    · subst h0
      simp [lookupA, putA, Ne.symm h]
    · simp [lookupA, putA, h0, ih]

@[simp] theorem lookupA_delA_self (s : List (α × β)) (k : α) :
    lookupA (delA s k) k = none := by
  induction s with
  | nil => simp [lookupA, delA]
  | cons hd tl ih =>
    obtain ⟨k', v'⟩ := hd
    by_cases h : k' = k <;> simp [lookupA, delA, h, ih]

theorem lookupA_delA_ne {s : List (α × β)} {k k' : α} (h : k' ≠ k) :
    lookupA (delA s k) k' = lookupA s k' := by
  induction s with
  | nil => simp [lookupA, delA]
  | cons hd tl ih =>
    obtain ⟨k₀, v₀⟩ := hd
    by_cases h0 : k₀ = k
    · subst h0
      simp [lookupA, delA, Ne.symm h, ih]
    · simp [lookupA, delA, h0, ih]

theorem lookupA_delA_of_none {s : List (α × β)} {k x : α}
    (h : lookupA s x = none) : lookupA (delA s k) x = none := by
  by_cases hk : x = k
  · subst hk; simp
  · rw [lookupA_delA_ne hk]; exact h

end AssocOps

/-- Error taxonomy carried by `xhttp.Err` codes and the login sentinels. -/
inductive Err where
  /-- 400, malformed email / empty token / username / password. -/
  | invalidInput
  /-- 409, email already in use. -/
  | conflict
  /-- 404, no such user / token. -/
  | notFound
  /-- 400, token past its expiry. -/
  | expired
  /-- 401, `GenericLoginErr` (invalid email or password). -/
  | generic
  /-- 403, `LoginLockoutErr`. -/
  | lockout
  /-- 500, "Whoops, something went wrong" (no pending change recorded). -/
  | whoops
  /-- 500 / wrapped store, decode or key-generation failure (aborts). -/
  | internal
  /-- Outbound mail send failure (bubbles out of the transaction body). -/
  | sendFail
deriving DecidableEq, Repr

/-- `strings.ToLower`, character-wise (kernel-reducible formulation). -/
def lowerString (s : String) : String := ⟨s.data.map Char.toLower⟩

/-- `emailToKey` (`src/unnamed/part_005`):
`"email." ++ sha256(strings.ToLower(email))`. -/
def emailToKey (email : String) : Key := Key.email (lowerString email)

/-- `crypto.HashPassword` / argon2, abstracted: the hash is a function of
the password and the salt (the salt itself is drawn from the random
oracle by the caller). -/
def HashPassword (password salt : String) : String :=
  "argon2:" ++ salt ++ ":" ++ password

/-- `crypto.ComparePasswords`: recompute the hash from the candidate
password and the stored salt and compare with the stored hash. -/
def ComparePasswords (password passHash passSalt : String) : Bool :=
  passHash == HashPassword password passSalt

/-- `email.IsAddressValid`, abstracting the external `net/mail` parser:
exactly one `@`, neither at the first nor at the last position. -/
def IsAddressValid (email : String) : Bool :=
  email.data.count '@' == 1 &&
  email.data.head? != some '@' &&
  email.data.getLast? != some '@'

/-- `const InviteMaxAgeHours = 12` (`invite.go`), as seconds. -/
def InviteMaxAge : Int := 12 * 3600

/-- `const PassEditMaxAgeMinutes = 15`, as seconds. -/
def PassEditMaxAge : Int := 15 * 60

/-- `const EmailEditMaxAgeMinutes = 15`, as seconds. -/
def EmailEditMaxAge : Int := 15 * 60

/-- `const MaxHourlyFailedLogins = 5` (`login.go`) =
`MaxFailedLogins` (`part_004`). -/
def MaxFailedLogins : Nat := 5

/-- `time.Hour` = `FailedLoginDuration`, as seconds. -/
def FailedLoginDuration : Int := 3600

/-- The user-ID generation loop of `StartUserInvite` (`invite.go:67-77`):
up to 10 candidates, stopping at the first whose `user.` key is absent.
After the tenth iteration the loop simply ends, keeping the last candidate
whether or not it collided (there is no exhaustion check in the source). -/
def genUserIDLoop (s : Store) (cands : Nat → String) : Nat → Nat → Key
  | i, 0 => Key.user (cands i)
  | i, 1 => Key.user (cands i)
  | i, Nat.succ fuel =>
    let k := Key.user (cands i)
    match lookupA s k with
    | none => k
    | some _ => genUserIDLoop s cands (i + 1) fuel

/-- The collision-checked retry loop inside `genKey`
(`src/unnamed/part_005:280-295`): up to `fuel` candidates, returning the
first whose key is absent from the current transaction. -/
def genKeyLoop (s : Store) (mk : String → Key) (cands : Nat → String) :
    Nat → Nat → Option (Key × String)
  | _, 0 => none
  | i, Nat.succ fuel =>
    let tok := cands i
    let k := mk tok
    match lookupA s k with
    | none => some (k, tok)
    | some _ => genKeyLoop s mk cands (i + 1) fuel

/-- `genKey` (`src/unnamed/part_005:272-300`): mint a token whose store key
is fresh in the current transaction, trying at most 10 candidates, failing
with an internal error when all collide. It performs no writes. -/
def genKey (s : Store) (mk : String → Key) (cands : Nat → String) :
    Except Err (Key × String) :=
  match genKeyLoop s mk cands 0 10 with
  | some r => Except.ok r
  | none => Except.error Err.internal

/-- `StartUserInvite` (`invite.go:24-95`). `cands` feeds the user-ID loop,
`rawToken` is the generated invite token, `sendOk` the mail-send outcome.
Returns the committed store (the original on abort) and the reported error. -/
def StartUserInvite (s : Store) (now : Int) (userEmail : String)
    (perms : List String) (cands : Nat → String) (rawToken : String)
    (sendOk : Bool) : Store × Option Err :=
  if !IsAddressValid userEmail then (s, some Err.invalidInput) else
  let emailKey := emailToKey userEmail
  match lookupA s emailKey with
  | some _ => (s, some Err.conflict)
  | none =>
    let inviteKey := Key.invite rawToken
    let newUser : User :=
      { perms := perms, email := userEmail, createdAt := now,
        inviteExpiry := now + InviteMaxAge, inviteKey := some inviteKey }
    let newUserID := genUserIDLoop s cands 0 10
    let s1 := putA s newUserID (Val.record newUser)
    let s2 := putA s1 emailKey (Val.key newUserID)
    let s3 := putA s2 inviteKey (Val.key newUserID)
    if sendOk then (s3, none) else (s, some Err.sendFail)

/-- `CompleteUserInvite` (`invite.go:101-188`). `ppVersion` is the config
value, `salt` the salt drawn for `HashPassword`. The rate limiter is
assumed to admit the call (it precedes the transaction and is untouched by
the claims). -/
def CompleteUserInvite (s : Store) (now ppVersion : Int) (salt : String)
    (token username password : String) : Store × Option Err :=
  if token = "" then (s, some Err.invalidInput) else
  if username = "" then (s, some Err.invalidInput) else
  if password = "" then (s, some Err.invalidInput) else
  let passHash := HashPassword password salt
  let inviteKey := Key.invite token
  match lookupA s inviteKey with
  | none => (s, some Err.notFound)
  | some (Val.record _) => (s, some Err.internal)
  | some (Val.key userKey) =>
    match lookupA s userKey with
    | none => (s, some Err.internal)
    | some (Val.key _) => (s, some Err.internal)
    | some (Val.record u) =>
      if u.inviteExpiry < now then
        (delA (delA s inviteKey) userKey, some Err.expired)
      else
        let u1 : User := { u with
          name := username
          passHash := passHash
          passSalt := salt
          inviteKey := none
          inviteExpiry := 0
          agreedPP := ppVersion
          notified := true }
        (delA (putA s userKey (Val.record u1)) inviteKey, none)

/-- The sliding-window pruning of `failedLogins`: keep timestamps strictly
younger than one hour (`currentTime.Sub(t) < time.Hour`). -/
def pruneFails (now : Int) (ts : List Int) : List Int :=
  ts.filter (fun t => now - t < FailedLoginDuration)

/-- `LoginUser` of `src/go/services/users/login.go:22-86`. The password is
compared first; on a match the transaction commits with no writes. On a
mismatch the list is pruned, a failure appended (only while the stored
list is below the threshold), and the record saved; the
`returnErr = LoginLockoutErr` assignment of line 77 is unconditionally
overwritten by `returnErr = GenericLoginErr` on line 79, which this model
mirrors. -/
def LoginUser (s : Store) (now : Int) (email password : String) :
    Store × Option Err :=
  if email = "" then (s, some Err.invalidInput) else
  if password = "" then (s, some Err.invalidInput) else
  match lookupA s (emailToKey email) with
  | none => (s, some Err.generic)
  | some (Val.record _) => (s, some Err.internal)
  | some (Val.key userKey) =>
    match lookupA s userKey with
    | none => (s, some Err.internal)
    | some (Val.key _) => (s, some Err.internal)
    | some (Val.record u) =>
      if ComparePasswords password u.passHash u.passSalt then
        (s, none)
      else
        let pruned := pruneFails now u.failedLogins
        let updated :=
          if u.failedLogins.length < MaxFailedLogins then pruned ++ [now]
          else pruned
        let s1 := putA s userKey (Val.record { u with failedLogins := updated })
        let _lockoutAssigned : Option Err :=
          if MaxFailedLogins ≤ updated.length then some Err.lockout else none
        (s1, some Err.generic)

/-- `LoginUser` of `src/unnamed/part_004:28-92` (the variant matching the
spec's LoginGuard): prune, append a failure while the stored list is below
the threshold, persist, then return `Lockout` before any password
comparison when the persisted list has reached the threshold; otherwise
compare the password. Note the appended timestamp is written *before* the
password is checked. -/
def LoginUserAlt (s : Store) (now : Int) (email password : String) :
    Store × Option Err :=
  if email = "" then (s, some Err.invalidInput) else
  if password = "" then (s, some Err.invalidInput) else
  match lookupA s (emailToKey email) with
  | none => (s, some Err.generic)
  | some (Val.record _) => (s, some Err.internal)
  | some (Val.key userKey) =>
    match lookupA s userKey with
    | none => (s, some Err.internal)
    | some (Val.key _) => (s, some Err.internal)
    | some (Val.record u) =>
      let pruned := pruneFails now u.failedLogins
      let updated :=
        if u.failedLogins.length < MaxFailedLogins then pruned ++ [now]
        else pruned
      let s1 := putA s userKey (Val.record { u with failedLogins := updated })
      if MaxFailedLogins ≤ updated.length then
        (s1, some Err.lockout)
      else if !ComparePasswords password u.passHash u.passSalt then
        (s1, some Err.generic)
      else
        (s1, none)

/-- The inner deletion loop of `invalidateUserSessions`: delete every named
session entry, skipping empty names; absent entries are tolerated. -/
def delSessionKeys (ss : SStore) : List String → SStore
  | [] => ss
  | k :: rest =>
    if k = "" then delSessionKeys ss rest
    else delSessionKeys (delA ss (SKey.sess k)) rest

/-- `invalidateUserSessions` (`src/unnamed/part_002:13-48`): read the
per-user session index, delete every listed session entry (tolerating
already-absent ones), then delete the index itself. A missing index is a
success with no change; an index value that fails to decode as a JSON list
aborts the transaction. -/
def invalidateUserSessions (ss : SStore) (userKey : Key) :
    Except Err SStore :=
  let indexKey := SKey.idx userKey
  match lookupA ss indexKey with
  | none => Except.ok ss
  | some (SVal.raw _) => Except.error Err.internal
  | some (SVal.idx ks) => Except.ok (delA (delSessionKeys ss ks) indexKey)

/-- `StartPasswordEdit` (`crypto.go` doc, `users` package, lines 58-118):
look the user up by email, delete any prior pending `password_edit.` index
entry, mint a fresh token with `genKey`, persist the back-reference and
expiry, write the token index, and send the reset mail last. -/
def StartPasswordEdit (s : Store) (now : Int) (userEmail : String)
    (cands : Nat → String) (sendOk : Bool) : Store × Option Err :=
  if !IsAddressValid userEmail then (s, some Err.invalidInput) else
  match lookupA s (emailToKey userEmail) with
  | none => (s, some Err.notFound)
  | some (Val.record _) => (s, some Err.internal)
  | some (Val.key userKey) =>
    match lookupA s userKey with
    | none => (s, some Err.internal)
    | some (Val.key _) => (s, some Err.internal)
    | some (Val.record u) =>
      let s1 := match u.passEditKey with
                | some k0 => delA s k0
                | none => s
      match genKey s1 Key.passEdit cands with
      | Except.error e => (s, some e)
      | Except.ok (passEditKey, _token) =>
        let u1 : User := { u with
          passEditKey := some passEditKey
          passEditExpiry := now + PassEditMaxAge }
        let s2 := putA s1 userKey (Val.record u1)
        let s3 := putA s2 passEditKey (Val.key userKey)
        if sendOk then (s3, none) else (s, some Err.sendFail)

/-- `CompletePasswordEdit` (`crypto.go` doc, `users` package, lines
123-212): resolve the token, delete its index entry immediately, validate
(pending-reset present, not expired) into `returnErr` without aborting,
apply the new credential and session invalidation only when validation
passed, always clear the pending fields, commit, and report `returnErr`. -/
def CompletePasswordEdit (s : Store) (ss : SStore) (now : Int)
    (salt token newPassword : String) : (Store × SStore) × Option Err :=
  if token = "" then ((s, ss), some Err.invalidInput) else
  if newPassword = "" then ((s, ss), some Err.invalidInput) else
  let passHash := HashPassword newPassword salt
  let passKey := Key.passEdit token
  match lookupA s passKey with
  | none => ((s, ss), some Err.notFound)
  | some (Val.record _) => ((s, ss), some Err.internal)
  | some (Val.key userKey) =>
    let s1 := delA s passKey
    match lookupA s1 userKey with
    | none => ((s, ss), some Err.internal)
    | some (Val.key _) => ((s, ss), some Err.internal)
    | some (Val.record u) =>
      let returnErr1 : Option Err :=
        if u.passEditKey = none then some Err.whoops else none
      let returnErr2 : Option Err :=
        if u.passEditExpiry < now ∨ u.passEditExpiry = 0 then some Err.expired
        else returnErr1
      match returnErr2 with
      | some e =>
        let u2 : User := { u with passEditKey := none, passEditExpiry := 0 }
        ((putA s1 userKey (Val.record u2), ss), some e)
      | none =>
        match invalidateUserSessions ss userKey with
        | Except.error e => ((s, ss), some e)
        | Except.ok ss1 =>
          let u2 : User := { u with
            passHash := passHash
            passSalt := salt
            passEditKey := none
            passEditExpiry := 0 }
          ((putA s1 userKey (Val.record u2), ss1), none)

/-- `StartEmailEdit` (`src/unnamed/part_003:23-87`): reject a candidate
email that is already indexed or equal (case-insensitively) to the current
one, delete any prior pending `email_edit.` index entry, mint a fresh
token, persist candidate/back-reference/expiry, write the token index, and
send the verification mail to the candidate address last. -/
def StartEmailEdit (s : Store) (now : Int) (userKey : Key)
    (emailCandidate : String) (cands : Nat → String) (sendOk : Bool) :
    Store × Option Err :=
  if !IsAddressValid emailCandidate then (s, some Err.invalidInput) else
  let candidateKey := emailToKey emailCandidate
  match lookupA s candidateKey with
  | some _ => (s, some Err.conflict)
  | none =>
    match lookupA s userKey with
    | none => (s, some Err.internal)
    | some (Val.key _) => (s, some Err.internal)
    | some (Val.record u) =>
      if lowerString u.email = lowerString emailCandidate then
        (s, some Err.invalidInput)
      else
        let s1 := match u.emailEditKey with
                  | some k0 => delA s k0
                  | none => s
        match genKey s1 Key.emailEdit cands with
        | Except.error e => (s, some e)
        | Except.ok (emailEditKey, _token) =>
          let u1 : User := { u with
            editEmail := emailCandidate
            emailEditKey := some emailEditKey
            emailEditExpiry := now + EmailEditMaxAge }
          let s2 := putA s1 userKey (Val.record u1)
          let s3 := putA s2 emailEditKey (Val.key userKey)
          if sendOk then (s3, none) else (s, some Err.sendFail)

/-- `CompleteEmailEdit` (`src/unnamed/part_003:92-191`): resolve the token,
delete its index entry immediately, validate (pending change present, not
expired, candidate email still unused *at completion time*) into
`returnErr` without aborting — later checks overwrite earlier ones exactly
as the sequential assignments do — apply the email change and session
invalidation only when validation passed, always clear the pending fields,
commit, and report `returnErr`. Deleting the old email mapping uses the
user's `EmailKey` back-reference; a nil back-reference makes that `Del`
fail with a non-NotFound error, aborting the transaction. -/
def CompleteEmailEdit (s : Store) (ss : SStore) (now : Int)
    (token : String) : (Store × SStore) × Option Err :=
  if token = "" then ((s, ss), some Err.invalidInput) else
  let emailKey := Key.emailEdit token
  match lookupA s emailKey with
  | none => ((s, ss), some Err.notFound)
  | some (Val.record _) => ((s, ss), some Err.internal)
  | some (Val.key userKey) =>
    let s1 := delA s emailKey
    match lookupA s1 userKey with
    | none => ((s, ss), some Err.internal)
    | some (Val.key _) => ((s, ss), some Err.internal)
    | some (Val.record u) =>
      let returnErr1 : Option Err :=
        if u.editEmail = "" ∨ u.emailEditKey = none then some Err.whoops
        else none
      let returnErr2 : Option Err :=
        if u.emailEditExpiry < now ∨ u.emailEditExpiry = 0 then
          some Err.expired
        else returnErr1
      let returnErr3 : Option Err :=
        if u.editEmail ≠ "" ∧ (lookupA s1 (emailToKey u.editEmail)).isSome
        then some Err.conflict
        else returnErr2
      match returnErr3 with
      | some e =>
        let u2 : User := { u with
          editEmail := ""
          emailEditKey := none
          emailEditExpiry := 0 }
        ((putA s1 userKey (Val.record u2), ss), some e)
      | none =>
        match u.emailKey with
        | none => ((s, ss), some Err.internal)
        | some oldKey =>
          let newEmailKey := emailToKey u.editEmail
          let s2 := putA (delA s1 oldKey) newEmailKey (Val.key userKey)
          match invalidateUserSessions ss userKey with
          | Except.error e => ((s, ss), some e)
          | Except.ok ss1 =>
            let u1 : User := { u with
              email := u.editEmail
              emailKey := some newEmailKey
              editEmail := ""
              emailEditKey := none
              emailEditExpiry := 0 }
            ((putA s2 userKey (Val.record u1), ss1), none)

/-- `SetUserEmail` (`src/unnamed/part_005:204-236`): admin-only direct email
change. It deletes the old mapping via the back-reference, rewrites the
record, and `Put`s the new mapping — with no check that the new email is
already indexed, so an existing entry is overwritten. A nil `EmailKey`
back-reference makes the `Del` fail with a non-NotFound error, aborting. -/
def SetUserEmail (s : Store) (userKey : Key) (newEmail : String) :
    Store × Option Err :=
  match lookupA s userKey with
  | none => (s, some Err.internal)
  | some (Val.key _) => (s, some Err.internal)
  | some (Val.record u) =>
    match u.emailKey with
    | none => (s, some Err.internal)
    | some oldKey =>
      let s1 := delA s oldKey
      let newKey := emailToKey newEmail
      let u1 : User := { u with email := newEmail, emailKey := some newKey }
      let s2 := putA s1 userKey (Val.record u1)
      (putA s2 newKey (Val.key userKey), none)

/-- `RemoveUser` (`src/unnamed/part_005:131-173`): cascade-delete the email
mapping and every token index named by the record's back-references, then
the record itself. An empty `EmailKey` back-reference is rejected up front
with an error (aborting before any deletion). -/
def RemoveUser (s : Store) (userKey : Key) : Store × Option Err :=
  match lookupA s userKey with
  | none => (s, some Err.internal)
  | some (Val.key _) => (s, some Err.internal)
  | some (Val.record u) =>
    match u.emailKey with
    | none => (s, some Err.internal)
    | some ek =>
      let s1 := delA s ek
      let s2 := match u.inviteKey with
                | some k => delA s1 k
                | none => s1
      let s3 := match u.emailEditKey with
                | some k => delA s2 k
                | none => s2
      let s4 := match u.passEditKey with
                | some k => delA s3 k
                | none => s3
      (delA s4 userKey, none)

/-!
## Derived notions used by the claims
-/

/-- Number of user records in the store carrying the given
case-insensitively normalized email. -/
def countUsersWithEmail (s : Store) (e : String) : Nat :=
  (s.filter fun p =>
    match p.2 with
    | Val.record u => lowerString u.email == lowerString e
    | Val.key _ => false).length

/-- The session index entry of `userKey`, when present, decodes as a JSON
list of session keys (the shape `recordSession` writes). -/
def sessionIdxWF (ss : SStore) (userKey : Key) : Prop :=
  ∀ v, lookupA ss (SKey.idx userKey) = some v → ∃ ks, v = SVal.idx ks

theorem invalidateUserSessions_ok {ss : SStore} {uk : Key}
    (h : sessionIdxWF ss uk) :
    ∃ ss1, invalidateUserSessions ss uk = Except.ok ss1 := by
  cases hl : lookupA ss (SKey.idx uk) with
  | none => exact ⟨ss, by simp [invalidateUserSessions, hl]⟩
  | some v =>
    obtain ⟨ks, rfl⟩ := h v hl
    refine ⟨delA (delSessionKeys ss ks) (SKey.idx uk), ?_⟩
    simp [invalidateUserSessions, hl]

theorem genKeyLoop_first {s : Store} {mk : String → Key} {cands : Nat → String}
    {i fuel : Nat} (h : lookupA s (mk (cands i)) = none) (hf : fuel ≠ 0) :
    genKeyLoop s mk cands i fuel = some (mk (cands i), cands i) := by
  cases fuel with
  | zero => exact absurd rfl hf
  | succ f => unfold genKeyLoop; simp [h]

theorem genKey_first (s : Store) (mk : String → Key) (cands : Nat → String)
    (h : lookupA s (mk (cands 0)) = none) :
    genKey s mk cands = Except.ok (mk (cands 0), cands 0) := by
  unfold genKey
  rw [genKeyLoop_first h (by decide)]

theorem completePasswordEdit_token_absent {s : Store} {ss : SStore}
    {now : Int} {salt tok pw : String} (htok : tok ≠ "") (hpw : pw ≠ "")
    (h : lookupA s (Key.passEdit tok) = none) :
    CompletePasswordEdit s ss now salt tok pw = ((s, ss), some Err.notFound) := by
  unfold CompletePasswordEdit
  simp [htok, hpw, h]

theorem completeEmailEdit_token_absent {s : Store} {ss : SStore}
    {now : Int} {tok : String} (htok : tok ≠ "")
    (h : lookupA s (Key.emailEdit tok) = none) :
    CompleteEmailEdit s ss now tok = ((s, ss), some Err.notFound) := by
  unfold CompleteEmailEdit
  simp [htok, h]

/-!
## Claims
-/

/-- C1: whenever the outbound invite mail send fails, `StartUserInvite`
aborts its transaction: the resulting store is identical to the store
before the call (in particular no user record, no email-index entry and no
invite-index entry for the invited address was committed), and an error is
reported. -/
theorem c1_invite_send_failure_atomic (s : Store) (now : Int)
    (userEmail : String) (perms : List String) (cands : Nat → String)
    (rawToken : String) :
    (StartUserInvite s now userEmail perms cands rawToken false).1 = s ∧
    (StartUserInvite s now userEmail perms cands rawToken false).2.isSome := by
  unfold StartUserInvite
  by_cases hv : IsAddressValid userEmail
  · cases h : lookupA s (emailToKey userEmail) <;> simp [hv, h]
  · simp [hv]

/-- Two users sharing distinct emails, both with correct back-references:
the state before the C2 counterexample's `SetUserEmail` call. -/
def c2UserA : User :=
  { email := "x@x.com", emailKey := some (emailToKey "x@x.com") }

/-- Second user of the C2 counterexample. -/
def c2UserB : User :=
  { email := "y@y.com", emailKey := some (emailToKey "y@y.com") }

/-- Store of the C2 counterexample: two users, two email-index entries,
each email carried by exactly one record. -/
def c2Store : Store :=
  [(Key.user "a", Val.record c2UserA),
   (emailToKey "x@x.com", Val.key (Key.user "a")),
   (Key.user "b", Val.record c2UserB),
   (emailToKey "y@y.com", Val.key (Key.user "b"))]

/-- C2 counterexample: `SetUserEmail` performs no uniqueness check, so
assigning user `b` the email already carried by user `a` succeeds and
leaves two user records with the same normalized email — the claimed
invariant preservation by `SetUserEmail` fails. -/
theorem c2_set_user_email_breaks_uniqueness :
    countUsersWithEmail c2Store "x@x.com" = 1 ∧
    (SetUserEmail c2Store (Key.user "b") "x@x.com").2 = none ∧
    countUsersWithEmail (SetUserEmail c2Store (Key.user "b") "x@x.com").1
      "x@x.com" = 2 := by
  decide

/-- C2 (amended): the guarded operations do preserve email uniqueness —
`StartUserInvite` on an already-indexed email reports `Conflict` and
leaves the store unchanged, and `CompleteEmailEdit` whose candidate email
is indexed at completion time reports `Conflict` and leaves the user's
email unchanged. (`SetUserEmail` performs no such check; see the
counterexample.) -/
theorem c2_guarded_ops_preserve_uniqueness :
    (∀ (s : Store) (now : Int) (e : String) (ps : List String)
       (cands : Nat → String) (tok : String) (ok : Bool) (v : Val),
       IsAddressValid e = true →
       lookupA s (emailToKey e) = some v →
       StartUserInvite s now e ps cands tok ok = (s, some Err.conflict)) ∧
    (∀ (s : Store) (ss : SStore) (now : Int) (tok uid : String) (u : User)
       (w : Val),
       tok ≠ "" →
       lookupA s (Key.emailEdit tok) = some (Val.key (Key.user uid)) →
       lookupA s (Key.user uid) = some (Val.record u) →
       u.editEmail ≠ "" →
       lookupA s (emailToKey u.editEmail) = some w →
       (CompleteEmailEdit s ss now tok).2 = some Err.conflict ∧
       ∃ u2 : User,
         lookupA (CompleteEmailEdit s ss now tok).1.1 (Key.user uid)
           = some (Val.record u2) ∧ u2.email = u.email) := by
  constructor
  · intro s now e ps cands tok ok v hv hl
    unfold StartUserInvite
    simp [hv, hl]
  · intro s ss now tok uid u w htok hte hu hce hw
    have hne1 : Key.user uid ≠ Key.emailEdit tok := by simp
    have hne2 : emailToKey u.editEmail ≠ Key.emailEdit tok := by
      simp [emailToKey]
    have hu1 : lookupA (delA s (Key.emailEdit tok)) (Key.user uid)
        = some (Val.record u) := by rw [lookupA_delA_ne hne1]; exact hu
    have hw1 : lookupA (delA s (Key.emailEdit tok)) (emailToKey u.editEmail)
        = some w := by rw [lookupA_delA_ne hne2]; exact hw
    unfold CompleteEmailEdit
    simp only [htok, if_neg, hte, hu1, hw1]
    simp [htok, hce, lookupA_putA_ne hne1]

/-- Pending-email-edit user of the C2 witness: current email `b2@x.com`,
candidate `x2@x.com`. -/
def c2wUser : User :=
  { email := "b2@x.com"
    editEmail := "x2@x.com"
    emailKey := some (emailToKey "b2@x.com")
    emailEditKey := some (Key.emailEdit "t2")
    emailEditExpiry := 500 }

/-- Store of the C2 witness: an indexed email `x@x.com` for the invite
part, and a user with a pending email change whose candidate `x2@x.com`
got indexed by someone else between start and completion. -/
def c2wStore : Store :=
  [(emailToKey "x@x.com", Val.key (Key.user "a")),
   (Key.user "b2", Val.record c2wUser),
   (Key.emailEdit "t2", Val.key (Key.user "b2")),
   (emailToKey "x2@x.com", Val.key (Key.user "z"))]

/-- C2 witness: both parts of the amended theorem applied at a concrete
store. -/
theorem c2_guarded_ops_preserve_uniqueness_witness :
    (StartUserInvite c2wStore 0 "x@x.com" [] (fun _ => "n") "tk" true
      = (c2wStore, some Err.conflict)) ∧
    ((CompleteEmailEdit c2wStore [] 0 "t2").2 = some Err.conflict ∧
     ∃ u2 : User,
       lookupA (CompleteEmailEdit c2wStore [] 0 "t2").1.1 (Key.user "b2")
         = some (Val.record u2) ∧ u2.email = c2wUser.email) :=
  ⟨c2_guarded_ops_preserve_uniqueness.1 c2wStore 0 "x@x.com" []
     (fun _ => "n") "tk" true (Val.key (Key.user "a")) (by decide) (by decide),
   c2_guarded_ops_preserve_uniqueness.2 c2wStore [] 0 "t2" "b2" c2wUser
     (Val.key (Key.user "z")) (by decide) (by decide) (by decide) (by decide)
     (by decide)⟩

/-- Locked-out user of the C3 evaluation: five failure timestamps within
the last hour and a known-correct password. -/
def c3User : User :=
  { email := "c3@x.com"
    passSalt := "s"
    passHash := HashPassword "pw" "s"
    failedLogins := [9000, 9000, 9000, 9000, 9000]
    emailKey := some (emailToKey "c3@x.com") }

/-- Store of the C3 evaluation. -/
def c3Store : Store :=
  [(Key.user "u3", Val.record c3User),
   (emailToKey "c3@x.com", Val.key (Key.user "u3"))]

/-- User of the C3 pruning scenario: five stored failures, one of which is
61 minutes old. -/
def c3bUser : User :=
  { email := "c3b@x.com"
    passSalt := "s"
    passHash := HashPassword "pw" "s"
    failedLogins := [6340, 9000, 9000, 9000, 9000]
    emailKey := some (emailToKey "c3b@x.com") }

/-- Store of the C3 pruning scenario. -/
def c3bStore : Store :=
  [(Key.user "u3b", Val.record c3bUser),
   (emailToKey "c3b@x.com", Val.key (Key.user "u3b"))]

/-- C3: evaluated at a user whose pruned `failedLogins` already has length
5 (all five failures within the hour, `now = 10000`), the `login.go`
variant `LoginUser` returns success on the correct password and the
generic 401 on a wrong one — never `Lockout`, contradicting its own doc
comment — while the `part_004` variant `LoginUserAlt` returns `Lockout`
for the correct password as the claim states; and with one of the five
failures recorded 61 minutes earlier (`now - 3660`), `LoginUserAlt` prunes
it below the threshold and the correct password logs in. -/
theorem c3_lockout_evaluation :
    (LoginUser c3Store 10000 "c3@x.com" "pw").2 = none ∧
    (LoginUser c3Store 10000 "c3@x.com" "bad").2 = some Err.generic ∧
    (LoginUserAlt c3Store 10000 "c3@x.com" "pw").2 = some Err.lockout ∧
    (LoginUserAlt c3Store 10000 "c3@x.com" "pw").1
      = c3Store ∧
    (LoginUserAlt c3bStore 10000 "c3b@x.com" "pw").2 = none := by
  decide

/-- Expired invited user of the C4 evaluation (`inviteExpiry = 50`,
`now = 100`). -/
def c4User : User :=
  { email := "c4@x.com"
    inviteExpiry := 50
    inviteKey := some (Key.invite "t4") }

/-- Store of the C4 evaluation: the invited user, its email-index entry
and its invite-index entry. -/
def c4Store : Store :=
  [(Key.user "u4", Val.record c4User),
   (emailToKey "c4@x.com", Val.key (Key.user "u4")),
   (Key.invite "t4", Val.key (Key.user "u4"))]

/-- C4: completing an expired invite deletes (and commits the deletion of)
the user record and the invite-index entry and reports `Expired`, but the
email-index entry is *not* deleted — it survives as an orphan pointing at
the deleted user, contrary to the claim and to the spec's
no-orphan-index invariant. -/
theorem c4_expired_invite_leaves_email_index :
    (CompleteUserInvite c4Store 100 1 "salt" "t4" "bob" "pw").2
      = some Err.expired ∧
    lookupA (CompleteUserInvite c4Store 100 1 "salt" "t4" "bob" "pw").1
      (Key.user "u4") = none ∧
    lookupA (CompleteUserInvite c4Store 100 1 "salt" "t4" "bob" "pw").1
      (Key.invite "t4") = none ∧
    lookupA (CompleteUserInvite c4Store 100 1 "salt" "t4" "bob" "pw").1
      (emailToKey "c4@x.com") = some (Val.key (Key.user "u4")) := by
  decide

/-- Result of the C8 evaluation: invite `a@x.com` into an empty store
(user-ID oracle yields `id8`, invite token `tok8`, mail send succeeds). -/
def c8Run : Store × Option Err :=
  StartUserInvite [] 100 "a@x.com" [] (fun _ => "id8") "tok8" true

/-- The user record `StartUserInvite` writes in the C8 evaluation: note
`emailKey = none` even though the email-index entry is written. -/
def c8Invited : User :=
  { email := "a@x.com"
    createdAt := 100
    inviteExpiry := 100 + InviteMaxAge
    inviteKey := some (Key.invite "tok8") }

/-- C8: immediately after a committed `StartUserInvite`, the
`email→userID` index entry exists but the invited user's `EmailKey`
back-reference is nil — the record does not mirror the index key — and
consequently `RemoveUser` on that user fails with an internal error
("user email key is empty") instead of cleaning up. -/
theorem c8_invite_missing_email_backref :
    c8Run.2 = none ∧
    lookupA c8Run.1 (emailToKey "a@x.com") = some (Val.key (Key.user "id8")) ∧
    lookupA c8Run.1 (Key.user "id8") = some (Val.record c8Invited) ∧
    c8Invited.emailKey = none ∧
    RemoveUser c8Run.1 (Key.user "id8") = (c8Run.1, some Err.internal) := by
  decide

/-- User of the C9 evaluation: correct password `pw`, one stale failure
timestamp (61+ minutes old at `now = 10000`). -/
def c9User : User :=
  { email := "c9@x.com"
    passSalt := "s"
    passHash := HashPassword "pw" "s"
    failedLogins := [200]
    emailKey := some (emailToKey "c9@x.com") }

/-- Store of the C9 evaluation. -/
def c9Store : Store :=
  [(Key.user "u9", Val.record c9User),
   (emailToKey "c9@x.com", Val.key (Key.user "u9"))]

/-- C9: on a *successful* login the `part_004` variant `LoginUserAlt`
nevertheless appends the current timestamp to the stored `failedLogins`
(it records the failure before comparing the password), while the
`login.go` variant `LoginUser` returns success without persisting
anything, leaving the stale unpruned list in place — each variant
contradicts one half of the claim. -/
theorem c9_failure_append_divergence :
    (LoginUserAlt c9Store 10000 "c9@x.com" "pw").2 = none ∧
    lookupA (LoginUserAlt c9Store 10000 "c9@x.com" "pw").1 (Key.user "u9")
      = some (Val.record { c9User with failedLogins := [10000] }) ∧
    LoginUser c9Store 10000 "c9@x.com" "pw" = (c9Store, none) ∧
    lookupA c9Store (Key.user "u9") = some (Val.record c9User) ∧
    c9User.failedLogins = [200] := by
  decide

/-- Store of the C10 `genKey` evaluation: the key of every candidate the
constant oracle can produce is already taken. -/
def c10Store : Store := [(Key.passEdit "t", Val.key (Key.user "x"))]

/-- Pre-existing user of the C10 `StartUserInvite` evaluation, stored at
the user-ID every candidate collides with. -/
def c10User : User := { email := "old@x.com", name := "old" }

/-- Store of the C10 `StartUserInvite` evaluation. -/
def c10Store2 : Store := [(Key.user "dup", Val.record c10User)]

/-- The record the colliding invite writes over the existing user. -/
def c10Invited : User :=
  { email := "new@x.com"
    createdAt := 100
    inviteExpiry := 100 + InviteMaxAge
    inviteKey := some (Key.invite "tk") }

/-- C10: `genKey` with all ten candidates colliding fails with the
internal key-exhaustion error (conforming), but the inline user-ID loop of
`StartUserInvite` has no exhaustion check: with all ten candidates
colliding it commits successfully and *overwrites* the pre-existing user
record at the colliding key, contrary to the claim. -/
theorem c10_exhaustion_divergence :
    genKey c10Store Key.passEdit (fun _ => "t") = Except.error Err.internal ∧
    (StartUserInvite c10Store2 100 "new@x.com" [] (fun _ => "dup") "tk"
      true).2 = none ∧
    lookupA c10Store2 (Key.user "dup") = some (Val.record c10User) ∧
    lookupA (StartUserInvite c10Store2 100 "new@x.com" [] (fun _ => "dup")
      "tk" true).1 (Key.user "dup") = some (Val.record c10Invited) ∧
    c10Invited ≠ c10User :=
  ⟨rfl, by decide⟩

/-- C5: for both two-phase workflows, a Complete call whose token resolves
to a user record deletes the token-index entry and commits that deletion
whatever the validation outcome (success, expired, or no pending change),
so a second Complete with the same token reports `NotFound` and leaves the
state unchanged. For the email workflow the user's `EmailKey`
back-reference is assumed non-nil (as for every user whose record ever
carried an email mapping); a nil back-reference would abort the success
path with an internal store error, outside the claim's enumerated
outcomes. -/
theorem c5_complete_consumes_token :
    (∀ (s : Store) (ss : SStore) (now now2 : Int)
       (salt salt2 tok pw pw2 uid : String) (u : User),
       tok ≠ "" → pw ≠ "" → pw2 ≠ "" →
       lookupA s (Key.passEdit tok) = some (Val.key (Key.user uid)) →
       lookupA s (Key.user uid) = some (Val.record u) →
       sessionIdxWF ss (Key.user uid) →
       lookupA (CompletePasswordEdit s ss now salt tok pw).1.1
         (Key.passEdit tok) = none ∧
       CompletePasswordEdit (CompletePasswordEdit s ss now salt tok pw).1.1
         (CompletePasswordEdit s ss now salt tok pw).1.2 now2 salt2 tok pw2
         = ((CompletePasswordEdit s ss now salt tok pw).1,
            some Err.notFound)) ∧
    (∀ (s : Store) (ss : SStore) (now now2 : Int) (tok uid : String)
       (u : User) (ek : Key),
       tok ≠ "" →
       lookupA s (Key.emailEdit tok) = some (Val.key (Key.user uid)) →
       lookupA s (Key.user uid) = some (Val.record u) →
       u.emailKey = some ek →
       sessionIdxWF ss (Key.user uid) →
       lookupA (CompleteEmailEdit s ss now tok).1.1
         (Key.emailEdit tok) = none ∧
       CompleteEmailEdit (CompleteEmailEdit s ss now tok).1.1
         (CompleteEmailEdit s ss now tok).1.2 now2 tok
         = ((CompleteEmailEdit s ss now tok).1, some Err.notFound)) := by
  constructor
  · intro s ss now now2 salt salt2 tok pw pw2 uid u htok hpw hpw2 hte hu hwf
    have hne1 : Key.user uid ≠ Key.passEdit tok := by simp
    have hu1 : lookupA (delA s (Key.passEdit tok)) (Key.user uid)
        = some (Val.record u) := by rw [lookupA_delA_ne hne1]; exact hu
    have hgone : lookupA (CompletePasswordEdit s ss now salt tok pw).1.1
        (Key.passEdit tok) = none := by
      unfold CompletePasswordEdit
      rw [if_neg htok, if_neg hpw]
      simp only [hte, hu1]
      by_cases h2 : u.passEditExpiry < now ∨ u.passEditExpiry = 0
      · simp [h2, lookupA_putA_ne hne1.symm]
      · by_cases h1 : u.passEditKey = none
        · simp [h2, h1, lookupA_putA_ne hne1.symm]
        · obtain ⟨ss1, hss⟩ := invalidateUserSessions_ok hwf
          simp [h2, h1, hss, lookupA_putA_ne hne1.symm]
    refine ⟨hgone, ?_⟩
    rw [completePasswordEdit_token_absent htok hpw2 hgone]
  · intro s ss now now2 tok uid u ek htok hte hu hek hwf
    have hne1 : Key.user uid ≠ Key.emailEdit tok := by simp
    have hu1 : lookupA (delA s (Key.emailEdit tok)) (Key.user uid)
        = some (Val.record u) := by rw [lookupA_delA_ne hne1]; exact hu
    have hgone : lookupA (CompleteEmailEdit s ss now tok).1.1
        (Key.emailEdit tok) = none := by
      unfold CompleteEmailEdit
      rw [if_neg htok]
      simp only [hte, hu1]
      by_cases h3 : u.editEmail ≠ "" ∧
          (lookupA (delA s (Key.emailEdit tok))
            (emailToKey u.editEmail)).isSome
      · simp [h3, lookupA_putA_ne hne1.symm]
      · by_cases h2 : u.emailEditExpiry < now ∨ u.emailEditExpiry = 0
        · simp [h3, h2, lookupA_putA_ne hne1.symm]
        · by_cases h1 : u.editEmail = "" ∨ u.emailEditKey = none
          · simp [h3, h2, h1, lookupA_putA_ne hne1.symm]
          · obtain ⟨ss1, hss⟩ := invalidateUserSessions_ok hwf
            have hne2 : emailToKey u.editEmail ≠ Key.emailEdit tok := by
              simp [emailToKey]
            simp [h3, h2, h1, hek, hss, lookupA_putA_ne hne1.symm,
              lookupA_putA_ne hne2.symm, lookupA_delA_of_none]
    refine ⟨hgone, ?_⟩
    rw [completeEmailEdit_token_absent htok hgone]

/-- User of the C5 witness, password workflow: pending reset with live
token `t5`. -/
def c5wUser : User :=
  { email := "w5@x.com"
    passEditKey := some (Key.passEdit "t5")
    passEditExpiry := 500 }

/-- Store of the C5 witness, password workflow. -/
def c5wStore : Store :=
  [(Key.user "u5", Val.record c5wUser),
   (Key.passEdit "t5", Val.key (Key.user "u5"))]

/-- User of the C5 witness, email workflow: pending change to `n6@x.com`
with live token `t6`. -/
def c5wUser2 : User :=
  { email := "o6@x.com"
    editEmail := "n6@x.com"
    emailKey := some (emailToKey "o6@x.com")
    emailEditKey := some (Key.emailEdit "t6")
    emailEditExpiry := 500 }

/-- Store of the C5 witness, email workflow. -/
def c5wStore2 : Store :=
  [(Key.user "u6", Val.record c5wUser2),
   (emailToKey "o6@x.com", Val.key (Key.user "u6")),
   (Key.emailEdit "t6", Val.key (Key.user "u6"))]

/-- C5 witness: both parts applied at concrete stores with an empty
session DBI. -/
theorem c5_complete_consumes_token_witness :
    (lookupA (CompletePasswordEdit c5wStore [] 100 "sl" "t5" "np").1.1
       (Key.passEdit "t5") = none ∧
     CompletePasswordEdit (CompletePasswordEdit c5wStore [] 100 "sl" "t5"
       "np").1.1 (CompletePasswordEdit c5wStore [] 100 "sl" "t5" "np").1.2
       200 "sl2" "t5" "np2"
       = ((CompletePasswordEdit c5wStore [] 100 "sl" "t5" "np").1,
          some Err.notFound)) ∧
    (lookupA (CompleteEmailEdit c5wStore2 [] 100 "t6").1.1
       (Key.emailEdit "t6") = none ∧
     CompleteEmailEdit (CompleteEmailEdit c5wStore2 [] 100 "t6").1.1
       (CompleteEmailEdit c5wStore2 [] 100 "t6").1.2 200 "t6"
       = ((CompleteEmailEdit c5wStore2 [] 100 "t6").1,
          some Err.notFound)) :=
  ⟨c5_complete_consumes_token.1 c5wStore [] 100 200 "sl" "sl2" "t5" "np"
     "np2" "u5" c5wUser (by decide) (by decide) (by decide) (by decide)
     (by decide) (by intro v h; simp [lookupA] at h),
   c5_complete_consumes_token.2 c5wStore2 [] 100 200 "t6" "u6" c5wUser2
     (emailToKey "o6@x.com") (by decide) (by decide) (by decide)
     (by decide) (by intro v h; simp [lookupA] at h)⟩

/-- C6: starting a workflow a second time while a prior token is pending
deletes the prior token's index entry before writing the new one; after
the commit the freshly minted entry (the oracle's first candidate, assumed
fresh and distinct from the prior token) is the *only* entry of that
workflow's namespace resolving to the user, and completing the prior token
afterwards reports `NotFound`. Both workflows are covered. -/
theorem c6_single_live_token :
    (∀ (s : Store) (ss : SStore) (now now2 : Int)
       (e t0 uid salt pw : String) (u : User) (cands : Nat → String),
       IsAddressValid e = true →
       lookupA s (emailToKey e) = some (Val.key (Key.user uid)) →
       lookupA s (Key.user uid) = some (Val.record u) →
       u.passEditKey = some (Key.passEdit t0) →
       (∀ t, lookupA s (Key.passEdit t) = some (Val.key (Key.user uid)) →
         t = t0) →
       lookupA s (Key.passEdit (cands 0)) = none →
       cands 0 ≠ t0 → t0 ≠ "" → pw ≠ "" →
       (StartPasswordEdit s now e cands true).2 = none ∧
       lookupA (StartPasswordEdit s now e cands true).1
         (Key.passEdit t0) = none ∧
       lookupA (StartPasswordEdit s now e cands true).1
         (Key.passEdit (cands 0)) = some (Val.key (Key.user uid)) ∧
       (∀ t, lookupA (StartPasswordEdit s now e cands true).1
          (Key.passEdit t) = some (Val.key (Key.user uid)) →
          t = cands 0) ∧
       CompletePasswordEdit (StartPasswordEdit s now e cands true).1 ss
         now2 salt t0 pw
         = (((StartPasswordEdit s now e cands true).1, ss),
            some Err.notFound)) ∧
    (∀ (s : Store) (ss : SStore) (now now2 : Int)
       (cand t0 uid : String) (u : User) (cands : Nat → String),
       IsAddressValid cand = true →
       lookupA s (emailToKey cand) = none →
       lookupA s (Key.user uid) = some (Val.record u) →
       lowerString u.email ≠ lowerString cand →
       u.emailEditKey = some (Key.emailEdit t0) →
       (∀ t, lookupA s (Key.emailEdit t) = some (Val.key (Key.user uid)) →
         t = t0) →
       lookupA s (Key.emailEdit (cands 0)) = none →
       cands 0 ≠ t0 → t0 ≠ "" →
       (StartEmailEdit s now (Key.user uid) cand cands true).2 = none ∧
       lookupA (StartEmailEdit s now (Key.user uid) cand cands true).1
         (Key.emailEdit t0) = none ∧
       lookupA (StartEmailEdit s now (Key.user uid) cand cands true).1
         (Key.emailEdit (cands 0)) = some (Val.key (Key.user uid)) ∧
       (∀ t, lookupA (StartEmailEdit s now (Key.user uid) cand cands
          true).1 (Key.emailEdit t) = some (Val.key (Key.user uid)) →
          t = cands 0) ∧
       CompleteEmailEdit (StartEmailEdit s now (Key.user uid) cand cands
         true).1 ss now2 t0
         = (((StartEmailEdit s now (Key.user uid) cand cands true).1, ss),
            some Err.notFound)) := by
  constructor
  · intro s ss now now2 e t0 uid salt pw u cands hval hem hu hpend honly
      hfresh hne ht0 hpw
    have hkne : Key.passEdit (cands 0) ≠ Key.passEdit t0 := by simp [hne]
    have hfresh1 : lookupA (delA s (Key.passEdit t0))
        (Key.passEdit (cands 0)) = none := by
      rw [lookupA_delA_ne hkne]; exact hfresh
    have hgen := genKey_first _ Key.passEdit cands hfresh1
    have hr : StartPasswordEdit s now e cands true
        = (putA (putA (delA s (Key.passEdit t0)) (Key.user uid)
            (Val.record { u with
              passEditKey := some (Key.passEdit (cands 0))
              passEditExpiry := now + PassEditMaxAge }))
            (Key.passEdit (cands 0)) (Val.key (Key.user uid)), none) := by
      unfold StartPasswordEdit
      simp only [hval, Bool.not_true, Bool.false_eq_true, if_false, hem,
        hu, hpend, hgen, if_true]
    have hu1 : Key.passEdit t0 ≠ Key.user uid := by simp
    have hgone : lookupA (StartPasswordEdit s now e cands true).1
        (Key.passEdit t0) = none := by
      rw [hr]
      rw [lookupA_putA_ne hkne.symm, lookupA_putA_ne hu1]
      simp
    refine ⟨by rw [hr], hgone, by rw [hr]; simp, ?_, ?_⟩
    · intro t hmem
      by_cases hteq : t = cands 0
      · exact hteq
      · exfalso
        have hne2 : Key.passEdit t ≠ Key.passEdit (cands 0) := by
          simp [hteq]
        rw [hr] at hmem
        rw [lookupA_putA_ne hne2] at hmem
        have hne3 : Key.passEdit t ≠ Key.user uid := by simp
        rw [lookupA_putA_ne hne3] at hmem
        by_cases ht0eq : t = t0
        · subst ht0eq
          rw [lookupA_delA_self] at hmem
          cases hmem
        · have hne4 : Key.passEdit t ≠ Key.passEdit t0 := by simp [ht0eq]
          rw [lookupA_delA_ne hne4] at hmem
          exact ht0eq (honly t hmem)
    · rw [completePasswordEdit_token_absent ht0 hpw hgone]
  · intro s ss now now2 cand t0 uid u cands hval hcand hu hneq hpend honly
      hfresh hne ht0
    have hkne : Key.emailEdit (cands 0) ≠ Key.emailEdit t0 := by simp [hne]
    have hfresh1 : lookupA (delA s (Key.emailEdit t0))
        (Key.emailEdit (cands 0)) = none := by
      rw [lookupA_delA_ne hkne]; exact hfresh
    have hgen := genKey_first _ Key.emailEdit cands hfresh1
    have hr : StartEmailEdit s now (Key.user uid) cand cands true
        = (putA (putA (delA s (Key.emailEdit t0)) (Key.user uid)
            (Val.record { u with
              editEmail := cand
              emailEditKey := some (Key.emailEdit (cands 0))
              emailEditExpiry := now + EmailEditMaxAge }))
            (Key.emailEdit (cands 0)) (Val.key (Key.user uid)), none) := by
      unfold StartEmailEdit
      simp only [hval, Bool.not_true, Bool.false_eq_true, if_false, hcand,
        hu, hpend, hgen, if_true, hneq, if_neg, if_true]
    have hu1 : Key.emailEdit t0 ≠ Key.user uid := by simp
    have hgone : lookupA (StartEmailEdit s now (Key.user uid) cand cands
        true).1 (Key.emailEdit t0) = none := by
      rw [hr]
      rw [lookupA_putA_ne hkne.symm, lookupA_putA_ne hu1]
      simp
    refine ⟨by rw [hr], hgone, by rw [hr]; simp, ?_, ?_⟩
    · intro t hmem
      by_cases hteq : t = cands 0
      · exact hteq
      · exfalso
        have hne2 : Key.emailEdit t ≠ Key.emailEdit (cands 0) := by
          simp [hteq]
        rw [hr] at hmem
        rw [lookupA_putA_ne hne2] at hmem
        have hne3 : Key.emailEdit t ≠ Key.user uid := by simp
        rw [lookupA_putA_ne hne3] at hmem
        by_cases ht0eq : t = t0
        · subst ht0eq
          rw [lookupA_delA_self] at hmem
          cases hmem
        · have hne4 : Key.emailEdit t ≠ Key.emailEdit t0 := by simp [ht0eq]
          rw [lookupA_delA_ne hne4] at hmem
          exact ht0eq (honly t hmem)
    · rw [completeEmailEdit_token_absent ht0 hgone]

/-- User of the C6 witness, password workflow: a pending reset whose live
token is `old`. -/
def c6wpUser : User :=
  { email := "p@x.com"
    emailKey := some (emailToKey "p@x.com")
    passEditKey := some (Key.passEdit "old")
    passEditExpiry := 300 }

/-- Store of the C6 witness, password workflow. -/
def c6wpStore : Store :=
  [(Key.user "p", Val.record c6wpUser),
   (emailToKey "p@x.com", Val.key (Key.user "p")),
   (Key.passEdit "old", Val.key (Key.user "p"))]

/-- User of the C6 witness, email workflow: a pending email change whose
live token is `olde`. -/
def c6weUser : User :=
  { email := "q@x.com"
    emailKey := some (emailToKey "q@x.com")
    editEmail := "mid@x.com"
    emailEditKey := some (Key.emailEdit "olde")
    emailEditExpiry := 300 }

/-- Store of the C6 witness, email workflow. -/
def c6weStore : Store :=
  [(Key.user "q", Val.record c6weUser),
   (emailToKey "q@x.com", Val.key (Key.user "q")),
   (Key.emailEdit "olde", Val.key (Key.user "q"))]

/-- C6 witness: both parts applied at concrete stores, with a constant
oracle minting the fresh token `new`. -/
theorem c6_single_live_token_witness :
    ((StartPasswordEdit c6wpStore 100 "p@x.com" (fun _ => "new") true).2
       = none ∧
     lookupA (StartPasswordEdit c6wpStore 100 "p@x.com" (fun _ => "new")
       true).1 (Key.passEdit "old") = none ∧
     lookupA (StartPasswordEdit c6wpStore 100 "p@x.com" (fun _ => "new")
       true).1 (Key.passEdit "new") = some (Val.key (Key.user "p")) ∧
     (∀ t, lookupA (StartPasswordEdit c6wpStore 100 "p@x.com"
        (fun _ => "new") true).1 (Key.passEdit t)
        = some (Val.key (Key.user "p")) → t = "new") ∧
     CompletePasswordEdit (StartPasswordEdit c6wpStore 100 "p@x.com"
       (fun _ => "new") true).1 [] 200 "sl" "old" "np"
       = (((StartPasswordEdit c6wpStore 100 "p@x.com" (fun _ => "new")
           true).1, []), some Err.notFound)) ∧
    ((StartEmailEdit c6weStore 100 (Key.user "q") "r@x.com"
       (fun _ => "new") true).2 = none ∧
     lookupA (StartEmailEdit c6weStore 100 (Key.user "q") "r@x.com"
       (fun _ => "new") true).1 (Key.emailEdit "olde") = none ∧
     lookupA (StartEmailEdit c6weStore 100 (Key.user "q") "r@x.com"
       (fun _ => "new") true).1 (Key.emailEdit "new")
       = some (Val.key (Key.user "q")) ∧
     (∀ t, lookupA (StartEmailEdit c6weStore 100 (Key.user "q") "r@x.com"
        (fun _ => "new") true).1 (Key.emailEdit t)
        = some (Val.key (Key.user "q")) → t = "new") ∧
     CompleteEmailEdit (StartEmailEdit c6weStore 100 (Key.user "q")
       "r@x.com" (fun _ => "new") true).1 [] 200 "olde"
       = (((StartEmailEdit c6weStore 100 (Key.user "q") "r@x.com"
           (fun _ => "new") true).1, []), some Err.notFound)) :=
  ⟨c6_single_live_token.1 c6wpStore [] 100 200 "p@x.com" "old" "p" "sl"
     "np" c6wpUser (fun _ => "new") (by decide) (by decide) (by decide)
     (by decide)
     (by
       intro t h
       simp only [c6wpStore, lookupA, emailToKey] at h
       split at h
       · next heq => exact absurd heq (by simp)
       · split at h
         · next heq => exact absurd heq (by simp)
         · split at h
           · next heq =>
             injection heq with hv
             exact hv.symm
           · cases h)
     (by decide) (by decide) (by decide) (by decide),
   c6_single_live_token.2 c6weStore [] 100 200 "r@x.com" "olde" "q"
     c6weUser (fun _ => "new") (by decide) (by decide) (by decide)
     (by decide) (by decide)
     (by
       intro t h
       simp only [c6weStore, lookupA, emailToKey] at h
       split at h
       · next heq => exact absurd heq (by simp)
       · split at h
         · next heq => exact absurd heq (by simp)
         · split at h
           · next heq =>
             injection heq with hv
             exact hv.symm
           · cases h)
     (by decide) (by decide) (by decide)⟩

theorem lookupA_delSessionKeys_of_none {ss : SStore} {x : SKey}
    (ks : List String) (h : lookupA ss x = none) :
    lookupA (delSessionKeys ss ks) x = none := by
  induction ks generalizing ss with
  | nil => simpa [delSessionKeys] using h
  | cons k0 rest ih =>
    unfold delSessionKeys
    by_cases hk : k0 = ""
    · rw [if_pos hk]
      exact ih h
    · rw [if_neg hk]
      exact ih (lookupA_delA_of_none h)

theorem lookupA_delSessionKeys_mem {ss : SStore} {ks : List String}
    {k : String} (hk : k ∈ ks) (hne : k ≠ "") :
    lookupA (delSessionKeys ss ks) (SKey.sess k) = none := by
  induction ks generalizing ss with
  | nil => cases hk
  | cons k0 rest ih =>
    unfold delSessionKeys
    rcases List.mem_cons.mp hk with rfl | hk2
    · rw [if_neg hne]
      exact lookupA_delSessionKeys_of_none rest (lookupA_delA_self _ _)
    · by_cases hk0 : k0 = ""
      · rw [if_pos hk0]; exact ih hk2
      · rw [if_neg hk0]; exact ih hk2

/-- C7: after a successful `CompletePasswordEdit` or `CompleteEmailEdit`
(the same transaction that updates the credential), every session key
recorded in the user's session index has been deleted from the session
DBI and the index entry itself is gone; session entries that were already
absent are tolerated (the hypotheses place no session entries in the DBI
beyond the index itself, yet the operation still succeeds). -/
theorem c7_complete_revokes_sessions :
    (∀ (s : Store) (ss : SStore) (now : Int)
       (salt tok pw uid : String) (u : User) (pk : Key) (ks : List String),
       tok ≠ "" → pw ≠ "" →
       lookupA s (Key.passEdit tok) = some (Val.key (Key.user uid)) →
       lookupA s (Key.user uid) = some (Val.record u) →
       u.passEditKey = some pk →
       ¬ u.passEditExpiry < now → u.passEditExpiry ≠ 0 →
       lookupA ss (SKey.idx (Key.user uid)) = some (SVal.idx ks) →
       (CompletePasswordEdit s ss now salt tok pw).2 = none ∧
       (∀ k ∈ ks, k ≠ "" →
         lookupA (CompletePasswordEdit s ss now salt tok pw).1.2
           (SKey.sess k) = none) ∧
       lookupA (CompletePasswordEdit s ss now salt tok pw).1.2
         (SKey.idx (Key.user uid)) = none) ∧
    (∀ (s : Store) (ss : SStore) (now : Int) (tok uid : String)
       (u : User) (pk ek : Key) (ks : List String),
       tok ≠ "" →
       lookupA s (Key.emailEdit tok) = some (Val.key (Key.user uid)) →
       lookupA s (Key.user uid) = some (Val.record u) →
       u.editEmail ≠ "" →
       u.emailEditKey = some pk →
       ¬ u.emailEditExpiry < now → u.emailEditExpiry ≠ 0 →
       lookupA s (emailToKey u.editEmail) = none →
       u.emailKey = some ek →
       lookupA ss (SKey.idx (Key.user uid)) = some (SVal.idx ks) →
       (CompleteEmailEdit s ss now tok).2 = none ∧
       (∀ k ∈ ks, k ≠ "" →
         lookupA (CompleteEmailEdit s ss now tok).1.2
           (SKey.sess k) = none) ∧
       lookupA (CompleteEmailEdit s ss now tok).1.2
         (SKey.idx (Key.user uid)) = none) := by
  constructor
  · intro s ss now salt tok pw uid u pk ks htok hpw hte hu hpend hexp1
      hexp2 hidx
    have hne1 : Key.user uid ≠ Key.passEdit tok := by simp
    have hu1 : lookupA (delA s (Key.passEdit tok)) (Key.user uid)
        = some (Val.record u) := by rw [lookupA_delA_ne hne1]; exact hu
    have h2 : ¬ (u.passEditExpiry < now ∨ u.passEditExpiry = 0) := by
      rintro (h | h)
      · exact hexp1 h
      · exact hexp2 h
    have h1 : ¬ u.passEditKey = none := by simp [hpend]
    have hss : invalidateUserSessions ss (Key.user uid)
        = Except.ok (delA (delSessionKeys ss ks)
            (SKey.idx (Key.user uid))) := by
      simp [invalidateUserSessions, hidx]
    have hr : CompletePasswordEdit s ss now salt tok pw
        = ((putA (delA s (Key.passEdit tok)) (Key.user uid)
            (Val.record { u with
              passHash := HashPassword pw salt
              passSalt := salt
              passEditKey := none
              passEditExpiry := 0 }),
            delA (delSessionKeys ss ks) (SKey.idx (Key.user uid))),
           none) := by
      unfold CompletePasswordEdit
      rw [if_neg htok, if_neg hpw]
      simp only [hte, hu1, h2, h1, if_false, hss]
    refine ⟨by rw [hr], ?_, by rw [hr]; simp⟩
    intro k hk hkne
    rw [hr]
    have hne2 : SKey.sess k ≠ SKey.idx (Key.user uid) := by simp
    rw [lookupA_delA_ne hne2]
    exact lookupA_delSessionKeys_mem hk hkne
  · intro s ss now tok uid u pk ek ks htok hte hu hedit hpend hexp1 hexp2
      hcand hek hidx
    have hne1 : Key.user uid ≠ Key.emailEdit tok := by simp
    have hu1 : lookupA (delA s (Key.emailEdit tok)) (Key.user uid)
        = some (Val.record u) := by rw [lookupA_delA_ne hne1]; exact hu
    have hne2 : emailToKey u.editEmail ≠ Key.emailEdit tok := by
      simp [emailToKey]
    have hcand1 : lookupA (delA s (Key.emailEdit tok))
        (emailToKey u.editEmail) = none := by
      rw [lookupA_delA_ne hne2]; exact hcand
    have h3 : ¬ (u.editEmail ≠ "" ∧
        (lookupA (delA s (Key.emailEdit tok))
          (emailToKey u.editEmail)).isSome) := by
      rintro ⟨-, hsome⟩
      rw [hcand1] at hsome
      cases hsome
    have h2 : ¬ (u.emailEditExpiry < now ∨ u.emailEditExpiry = 0) := by
      rintro (h | h)
      · exact hexp1 h
      · exact hexp2 h
    have h1 : ¬ (u.editEmail = "" ∨ u.emailEditKey = none) := by
      rintro (h | h)
      · exact hedit h
      · rw [hpend] at h
        cases h
    have hss : invalidateUserSessions ss (Key.user uid)
        = Except.ok (delA (delSessionKeys ss ks)
            (SKey.idx (Key.user uid))) := by
      simp [invalidateUserSessions, hidx]
    have hr : CompleteEmailEdit s ss now tok
        = ((putA (putA (delA (delA s (Key.emailEdit tok)) ek)
            (emailToKey u.editEmail) (Val.key (Key.user uid)))
            (Key.user uid)
            (Val.record { u with
              email := u.editEmail
              emailKey := some (emailToKey u.editEmail)
              editEmail := ""
              emailEditKey := none
              emailEditExpiry := 0 }),
            delA (delSessionKeys ss ks) (SKey.idx (Key.user uid))),
           none) := by
      unfold CompleteEmailEdit
      rw [if_neg htok]
      simp only [hte, hu1, h3, h2, h1, if_false, hek, hss]
    refine ⟨by rw [hr], ?_, by rw [hr]; simp⟩
    intro k hk hkne
    rw [hr]
    have hne3 : SKey.sess k ≠ SKey.idx (Key.user uid) := by simp
    rw [lookupA_delA_ne hne3]
    exact lookupA_delSessionKeys_mem hk hkne

/-- User of the C7 witness, password workflow. -/
def c7wUser : User :=
  { email := "w7@x.com"
    passEditKey := some (Key.passEdit "t7")
    passEditExpiry := 500 }

/-- Store of the C7 witness, password workflow. -/
def c7wStore : Store :=
  [(Key.user "u7", Val.record c7wUser),
   (Key.passEdit "t7", Val.key (Key.user "u7"))]

/-- Session DBI of the C7 witness, password workflow: an index naming two
sessions, one of which (`sB`) has no entry of its own — tolerated. -/
def c7wSessions : SStore :=
  [(SKey.idx (Key.user "u7"), SVal.idx ["sA", "sB"]),
   (SKey.sess "sA", SVal.raw "cookieA")]

/-- User of the C7 witness, email workflow. -/
def c7wUser2 : User :=
  { email := "o7@x.com"
    editEmail := "n7@x.com"
    emailKey := some (emailToKey "o7@x.com")
    emailEditKey := some (Key.emailEdit "t8")
    emailEditExpiry := 500 }

/-- Store of the C7 witness, email workflow. -/
def c7wStore2 : Store :=
  [(Key.user "u8", Val.record c7wUser2),
   (emailToKey "o7@x.com", Val.key (Key.user "u8")),
   (Key.emailEdit "t8", Val.key (Key.user "u8"))]

/-- Session DBI of the C7 witness, email workflow. -/
def c7wSessions2 : SStore :=
  [(SKey.idx (Key.user "u8"), SVal.idx ["sC"]),
   (SKey.sess "sC", SVal.raw "cookieC")]

/-- C7 witness: both parts applied at concrete stores; `sB` is listed in
the index without a session entry and the operation still succeeds. -/
theorem c7_complete_revokes_sessions_witness :
    ((CompletePasswordEdit c7wStore c7wSessions 100 "sl" "t7" "np").2
       = none ∧
     (∀ k ∈ ["sA", "sB"], k ≠ "" →
       lookupA (CompletePasswordEdit c7wStore c7wSessions 100 "sl" "t7"
         "np").1.2 (SKey.sess k) = none) ∧
     lookupA (CompletePasswordEdit c7wStore c7wSessions 100 "sl" "t7"
       "np").1.2 (SKey.idx (Key.user "u7")) = none) ∧
    ((CompleteEmailEdit c7wStore2 c7wSessions2 100 "t8").2 = none ∧
     (∀ k ∈ ["sC"], k ≠ "" →
       lookupA (CompleteEmailEdit c7wStore2 c7wSessions2 100 "t8").1.2
         (SKey.sess k) = none) ∧
     lookupA (CompleteEmailEdit c7wStore2 c7wSessions2 100 "t8").1.2
       (SKey.idx (Key.user "u8")) = none) :=
  ⟨c7_complete_revokes_sessions.1 c7wStore c7wSessions 100 "sl" "t7" "np"
     "u7" c7wUser (Key.passEdit "t7") ["sA", "sB"] (by decide) (by decide)
     (by decide) (by decide) (by decide) (by decide) (by decide)
     (by decide),
   c7_complete_revokes_sessions.2 c7wStore2 c7wSessions2 100 "t8" "u8"
     c7wUser2 (Key.emailEdit "t8") (emailToKey "o7@x.com") ["sC"]
     (by decide) (by decide) (by decide) (by decide) (by decide)
     (by decide) (by decide) (by decide) (by decide) (by decide)⟩

end Ssv
